import Mathlib

/-!
Formal model of the coin dashboard worker (`src/src/index.ts`) together with
proofs of its specified properties.

Numbers: JavaScript numeric expressions are modelled over `ℚ`; `Math.round`
is `jsRound` (floor of `x + 1/2`, round half toward positive infinity, which
is JavaScript's rounding mode).  The single site where the code can divide by
zero (the percent-change computation, line 99) is made observable by
`percentChangeDivisor`, which records the divisor handed to that division.

Effects: the upstream fetch is modelled as a function from a market id to
`Except String (List CandleData)`, `Except.error` standing for a rejected
fetch promise.  `Promise.all` preserves the order of its inputs, so the
fan-out over markets is modelled as an order-preserving traversal.
-/

/-- Daily candle record returned by the upstream API (`index.ts` lines 7-18). -/
structure CandleData where
  market : String
  candle_date_time_utc : String
  candle_date_time_kst : String
  opening_price : ℚ
  high_price : ℚ
  low_price : ℚ
  trade_price : ℚ
  timestamp : ℤ
  candle_acc_trade_price : ℚ
  candle_acc_trade_volume : ℚ
  deriving DecidableEq, Inhabited

/-- Market list entry returned by `/v1/market/all` (`index.ts` lines 20-24). -/
structure MarketInfo where
  market : String
  korean_name : String
  english_name : String
  deriving DecidableEq, Inhabited

/-- Per-market metric record assembled by the aggregator (`index.ts` lines 26-34). -/
structure CoinMetrics where
  market : String
  koreanName : String
  currentPrice : ℚ
  volume24h : ℚ
  rsi : ℚ
  priceChange24h : ℚ
  priceChangePercent : ℚ
  deriving DecidableEq, Inhabited

/-- JavaScript `Math.round`: round half toward positive infinity. -/
def jsRound (q : ℚ) : ℤ := ⌊q + 1 / 2⌋

/-- Oldest-first price series (`index.ts` line 40):
`candles.map((c) => c.trade_price).reverse()`. -/
def rsiPrices (candles : List CandleData) : List ℚ :=
  (candles.map (fun c => c.trade_price)).reverse

/-- The `gains` accumulator after the loop of lines 46-53: the loop index `i`
runs from `1` to `period` and adds `prices[i] - prices[i-1]` when positive;
here `j = i - 1` runs over `List.range period`. -/
def rsiGains (prices : List ℚ) (period : ℕ) : ℚ :=
  ((List.range period).map (fun j =>
    let change := prices.getD (j + 1) 0 - prices.getD j 0
    if 0 < change then change else 0)).sum

/-- The `losses` accumulator after the loop of lines 46-53: the non-positive
changes contribute their absolute value (a zero change contributes `|0| = 0`,
exactly as the `else` branch of line 50 does). -/
def rsiLosses (prices : List ℚ) (period : ℕ) : ℚ :=
  ((List.range period).map (fun j =>
    let change := prices.getD (j + 1) 0 - prices.getD j 0
    if 0 < change then 0 else |change|)).sum

/-- `calculateRSI` (`index.ts` lines 37-64).  The `period` parameter defaults
to `14` in the source; call sites of the model pass `14` explicitly. -/
def calculateRSI (candles : List CandleData) (period : ℕ) : ℚ :=
  if candles.length < period + 1 then 50
  else
    let prices := rsiPrices candles
    let avgGain := rsiGains prices period / period
    let avgLoss := rsiLosses prices period / period
    if avgLoss = 0 then 100
    else
      let rs := avgGain / avgLoss
      let rsi := 100 - 100 / (1 + rs)
      (jsRound (rsi * 100) : ℚ) / 100

/-- Claim-side formulation (spec 4.1): the consecutive oldest-first price
changes, the change at position `j` being `prices[j+1] - prices[j]`. -/
def consecutiveChanges (ps : List ℚ) : List ℚ :=
  (ps.zip ps.tail).map (fun pq => pq.2 - pq.1)

/-- Claim-side formulation (spec 4.1): `gains` as the sum of the positive
changes among the first `period` consecutive changes. -/
def gainsOf (ps : List ℚ) (period : ℕ) : ℚ :=
  (((consecutiveChanges ps).take period).filter (fun c => decide (0 < c))).sum

/-- Claim-side formulation (spec 4.1): `losses` as the sum of the absolute
values of the negative changes among the first `period` consecutive changes. -/
def lossesOf (ps : List ℚ) (period : ℕ) : ℚ :=
  ((((consecutiveChanges ps).take period).filter (fun c => decide (c < 0))).map
    (fun c => |c|)).sum

/-- JavaScript `String.prototype.startsWith` (used at `index.ts` line 85 as
`m.market.startsWith('KRW-')`), modelled on the character sequences. -/
def startsWith (s p : String) : Bool := p.data.isPrefixOf s.data

/-- Per-market record construction from successfully fetched candles
(`index.ts` lines 93-112).  Returns `none` when fewer than 2 candles arrive.
`priceChangePercent` is the line-99 expression; the rational embedding gives
`x / 0 = 0` where JavaScript produces a non-finite number, so the divisor fed
to that division site is exposed separately by `percentChangeDivisor`. -/
def processMarket (market : MarketInfo) (candles : List CandleData) : Option CoinMetrics :=
  if candles.length < 2 then none
  else
    let currentPrice := (candles.getD 0 default).trade_price
    let volume24h := (candles.getD 0 default).candle_acc_trade_volume
    let priceYesterday := (candles.getD 1 default).trade_price
    let priceChange24h := currentPrice - priceYesterday
    let priceChangePercent := priceChange24h / priceYesterday * 100
    let rsi := calculateRSI candles 14
    some
      { market := market.market
        koreanName := market.korean_name
        currentPrice := currentPrice
        volume24h := volume24h
        rsi := rsi
        priceChange24h := priceChange24h
        priceChangePercent := priceChangePercent }

/-- The divisor handed to the division of `index.ts` line 99
(`priceChange24h / priceYesterday`).  That division is executed exactly when
the candle-count check of line 93 passes, with `candles[1].trade_price` as its
divisor and with no zero test anywhere on the path; `none` means the division
site is never reached. -/
def percentChangeDivisor (candles : List CandleData) : Option ℚ :=
  if candles.length < 2 then none
  else some ((candles.getD 1 default).trade_price)

/-- The candidate market list (`index.ts` line 85): markets whose id starts
with `KRW-`, capped at the first 30. -/
def krwCandidates (markets : List MarketInfo) : List MarketInfo :=
  (markets.filter (fun m => startsWith m.market "KRW-")).take 30

/-- One branch of the fan-out (`index.ts` lines 88-117): fetch the candle
series for a market and build its record; a rejected fetch is caught and
yields `none` (lines 113-116). -/
def fetchAndProcess (fetch : String → Except String (List CandleData))
    (m : MarketInfo) : Option CoinMetrics :=
  match fetch m.market with
  | Except.ok candles => processMarket m candles
  | Except.error _ => none

/-- `getCoinMetrics` (`index.ts` lines 82-121), parametrised by the market
list and the per-market fetch outcome.  `Promise.all` keeps input order and
line 120 drops the `null` entries, which is exactly `List.filterMap`. -/
def getCoinMetrics (markets : List MarketInfo)
    (fetch : String → Except String (List CandleData)) : List CoinMetrics :=
  (krwCandidates markets).filterMap (fetchAndProcess fetch)

/-- The record ordering produced by `generateDashboard` (`index.ts` lines
124-133): the function copies the metrics array (`[...metrics]`) and sorts the
copy descending by the requested key; the HTML rows are then rendered by
walking this sorted copy in order (lines 135-160).  Rendering itself is pure
string formatting and is not modelled; this definition returns the records in
rendered order.  A JavaScript comparator `(a, b) => b.k - a.k` puts `a` before
`b` exactly when `b.k ≤ a.k`, and `Array.prototype.sort` is a stable sort. -/
def generateDashboard (metrics : List CoinMetrics) (sortBy : String) : List CoinMetrics :=
  let sortedMetrics := metrics
  if sortBy = "volume" then
    sortedMetrics.mergeSort (fun a b => decide (b.volume24h ≤ a.volume24h))
  else if sortBy = "rsi" then
    sortedMetrics.mergeSort (fun a b => decide (b.rsi ≤ a.rsi))
  else if sortBy = "change" then
    sortedMetrics.mergeSort (fun a b => decide (b.priceChangePercent ≤ a.priceChangePercent))
  else sortedMetrics

/-- State-passing embedding of `generateDashboard`'s effect on the caller's
array.  `Array.prototype.sort` mutates its receiver, so the embedding threads
the caller's array through explicitly: the first component is the caller's
array as observed after the call, the second the rendered order.  The code
sorts only the copy `[...metrics]` (line 126), so the caller's array flows
through unchanged; an in-place `metrics.sort(...)` would instead have to
return the sorted array as the first component. -/
def generateDashboardState (metrics : List CoinMetrics) (sortBy : String) :
    List CoinMetrics × List CoinMetrics :=
  let callerMetrics := metrics
  (callerMetrics, generateDashboard callerMetrics sortBy)

/-- Concrete candle with the given trade price, for witnesses. -/
def exCandle (p : ℚ) : CandleData :=
  { market := "KRW-TEST"
    candle_date_time_utc := ""
    candle_date_time_kst := ""
    opening_price := p
    high_price := p
    low_price := p
    trade_price := p
    timestamp := 0
    candle_acc_trade_price := 0
    candle_acc_trade_volume := 1 }

/-- The 15 newest-first prices of the spec's section-8 worked example. -/
def ex14 : List CandleData :=
  [105, 100, 98, 102, 99, 97, 101, 103, 96, 94, 100, 102, 98, 95, 93].map exCandle

/-- Fifteen equal prices: every consecutive change is zero. -/
def exFlat : List CandleData := List.replicate 15 (exCandle 100)

/-- Candle pair whose previous-period trade price is zero. -/
def exZeroCandles : List CandleData := [exCandle 50, exCandle 0]

/-- Concrete market entries for witnesses. -/
def exMarketA : MarketInfo :=
  { market := "KRW-AAA", korean_name := "AAA", english_name := "AAA" }

/-- Second concrete market entry for witnesses. -/
def exMarketB : MarketInfo :=
  { market := "KRW-BBB", korean_name := "BBB", english_name := "BBB" }

/-- Two-candle series for witnesses (most recent first). -/
def exTwoCandles : List CandleData := [exCandle 2, exCandle 1]

/-- Single-candle series for witnesses. -/
def exOneCandle : List CandleData := [exCandle 1]

/-- Witness metrics records. -/
def exMetric1 : CoinMetrics :=
  { market := "KRW-AAA", koreanName := "AAA", currentPrice := 1, volume24h := 3
    rsi := 40, priceChange24h := 1, priceChangePercent := 5 }

/-- Second witness metrics record. -/
def exMetric2 : CoinMetrics :=
  { market := "KRW-BBB", koreanName := "BBB", currentPrice := 2, volume24h := 7
    rsi := 60, priceChange24h := -1, priceChangePercent := -5 }

/-- Witness market list. -/
def exMarkets : List MarketInfo := [exMarketA, exMarketB]

/-- Witness fetch: one candle for `KRW-AAA`, two candles for everything else. -/
def exFetch7 : String → Except String (List CandleData) := fun s =>
  if s = "KRW-AAA" then Except.ok exOneCandle else Except.ok exTwoCandles

/-- Witness fetch whose `KRW-AAA` branch rejects. -/
def exFetchErr : String → Except String (List CandleData) := fun s =>
  if s = "KRW-AAA" then Except.error "boom" else Except.ok exTwoCandles

/-- Witness fetch that always succeeds with two candles. -/
def exFetchOk : String → Except String (List CandleData) := fun _ =>
  Except.ok exTwoCandles

/-- Witness metrics collection. -/
def exMetrics : List CoinMetrics := [exMetric1, exMetric2]

/-! ### Helper lemmas -/

theorem rsiPrices_length (candles : List CandleData) :
    (rsiPrices candles).length = candles.length := by
  simp [rsiPrices]

theorem rsiGains_nonneg (prices : List ℚ) (period : ℕ) :
    0 ≤ rsiGains prices period := by
  apply List.sum_nonneg
  intro x hx
  simp only [rsiGains, List.mem_map] at hx
  obtain ⟨j, _, rfl⟩ := hx
  split
  · rename_i h
    exact h.le
  · exact le_refl 0

theorem rsiLosses_nonneg (prices : List ℚ) (period : ℕ) :
    0 ≤ rsiLosses prices period := by
  apply List.sum_nonneg
  intro x hx
  simp only [rsiLosses, List.mem_map] at hx
  obtain ⟨j, _, rfl⟩ := hx
  split
  · exact le_refl 0
  · exact abs_nonneg _

/-! ### Claim theorems -/

/-- C5: for every input price sequence with fewer than `period + 1`
observations, `calculateRSI` returns exactly the neutral value 50. -/
theorem calculateRSI_sparse_neutral (candles : List CandleData) (period : ℕ)
    (h : candles.length < period + 1) :
    calculateRSI candles period = 50 := by
  simp [calculateRSI, h]

/-- Witness for C5 at the empty series and the default period 14. -/
theorem calculateRSI_sparse_neutral_witness :
    ([] : List CandleData).length < 14 + 1 ∧ calculateRSI [] 14 = 50 :=
  ⟨by decide, calculateRSI_sparse_neutral [] 14 (by decide)⟩

/-- C3: for every input price sequence and every period, the value returned by
`calculateRSI` lies in the closed interval `[0, 100]`. -/
theorem calculateRSI_in_range (candles : List CandleData) (period : ℕ) :
    0 ≤ calculateRSI candles period ∧ calculateRSI candles period ≤ 100 := by
  unfold calculateRSI
  split
  · norm_num
  · set prices := rsiPrices candles with hp
    by_cases hL : rsiLosses prices period / (period : ℚ) = 0
    · simp only [hL, if_pos rfl]
      norm_num
    · rw [if_neg hL]
      have hlnn : 0 ≤ rsiLosses prices period := rsiLosses_nonneg prices period
      have hpnn : (0 : ℚ) ≤ (period : ℚ) := Nat.cast_nonneg period
      have havgL : 0 < rsiLosses prices period / (period : ℚ) :=
        lt_of_le_of_ne (div_nonneg hlnn hpnn) (Ne.symm hL)
      have hgnn : 0 ≤ rsiGains prices period / (period : ℚ) :=
        div_nonneg (rsiGains_nonneg prices period) hpnn
      set rs := rsiGains prices period / (period : ℚ) /
        (rsiLosses prices period / (period : ℚ)) with hrs
      have hrsnn : 0 ≤ rs := div_nonneg hgnn havgL.le
      have h1rs : (0 : ℚ) < 1 + rs := by linarith
      have hfrac_pos : 0 < 100 / (1 + rs) := by positivity
      have hfrac_le : 100 / (1 + rs) ≤ 100 := by
        rw [div_le_iff₀ h1rs]
        nlinarith
      set rsi := 100 - 100 / (1 + rs) with hrsi
      have hrsi0 : 0 ≤ rsi := by simp only [hrsi]; linarith
      have hrsi100 : rsi < 100 := by simp only [hrsi]; linarith
      constructor
      · apply div_nonneg _ (by norm_num)
        rw [Int.cast_nonneg, jsRound, Int.floor_nonneg]
        nlinarith
      · rw [div_le_iff₀ (by norm_num : (0:ℚ) < 100)]
        have : jsRound (rsi * 100) < 10001 := by
          rw [jsRound, Int.floor_lt]
          push_cast
          nlinarith
        have : jsRound (rsi * 100) ≤ 10000 := by omega
        calc (jsRound (rsi * 100) : ℚ) ≤ 10000 := by exact_mod_cast this
        _ = 100 * 100 := by norm_num

theorem calculateRSI_hundred_of_no_decrease (candles : List CandleData) (period : ℕ)
    (h1 : period + 1 ≤ candles.length)
    (h2 : ∀ j < period,
      (rsiPrices candles).getD j 0 ≤ (rsiPrices candles).getD (j + 1) 0) :
    calculateRSI candles period = 100 := by
  have hlosses : rsiLosses (rsiPrices candles) period = 0 := by
    apply List.sum_eq_zero
    intro x hx
    simp only [rsiLosses, List.mem_map, List.mem_range] at hx
    obtain ⟨j, hj, rfl⟩ := hx
    have hle := h2 j hj
    split
    · rfl
    · rename_i hnp
      have hz : (rsiPrices candles).getD (j + 1) 0 - (rsiPrices candles).getD j 0 = 0 :=
        le_antisymm (not_lt.mp hnp) (by linarith)
      rw [hz, abs_zero]
  unfold calculateRSI
  rw [if_neg (by omega)]
  simp [hlosses]

theorem list_sum_pos_of_mem (l : List ℚ) :
    (∀ x ∈ l, 0 ≤ x) → ∀ x ∈ l, 0 < x → 0 < l.sum := by
  induction l with
  | nil =>
    intro _ x hx
    cases hx
  | cons a t ih =>
    intro h0 x hx hxpos
    rw [List.sum_cons]
    rcases List.mem_cons.mp hx with rfl | h
    · have ht : 0 ≤ t.sum :=
        List.sum_nonneg fun y hy => h0 y (List.mem_cons_of_mem _ hy)
      linarith
    · have ha : 0 ≤ a := h0 a (List.mem_cons_self a t)
      have hs := ih (fun y hy => h0 y (List.mem_cons_of_mem a hy)) x h hxpos
      linarith

theorem rsiLosses_pos_of_decrease (prices : List ℚ) (period : ℕ) (j : ℕ)
    (hj : j < period) (hdec : prices.getD (j + 1) 0 < prices.getD j 0) :
    0 < rsiLosses prices period := by
  unfold rsiLosses
  apply list_sum_pos_of_mem _ ?_
    (if 0 < prices.getD (j + 1) 0 - prices.getD j 0 then (0 : ℚ)
      else |prices.getD (j + 1) 0 - prices.getD j 0|) ?_ ?_
  · intro x hx
    simp only [List.mem_map] at hx
    obtain ⟨j', _, rfl⟩ := hx
    split
    · exact le_refl 0
    · exact abs_nonneg _
  · exact List.mem_map.mpr ⟨j, List.mem_range.mpr hj, rfl⟩
  · rw [if_neg (by intro hlt; linarith)]
    exact abs_pos.mpr (by intro hz; linarith [sub_eq_zero.mp hz])

theorem rsiGains_eq_zero_of_no_increase (prices : List ℚ) (period : ℕ)
    (h : ∀ j < period, prices.getD (j + 1) 0 ≤ prices.getD j 0) :
    rsiGains prices period = 0 := by
  apply List.sum_eq_zero
  intro x hx
  simp only [rsiGains, List.mem_map, List.mem_range] at hx
  obtain ⟨j, hj, rfl⟩ := hx
  have hle := h j hj
  rw [if_neg (by intro hlt; linarith)]

theorem calculateRSI_zero_of_no_increase (candles : List CandleData) (period : ℕ)
    (h1 : period + 1 ≤ candles.length)
    (h2 : ∀ j < period,
      (rsiPrices candles).getD (j + 1) 0 ≤ (rsiPrices candles).getD j 0)
    (h3 : ∃ j < period,
      (rsiPrices candles).getD (j + 1) 0 < (rsiPrices candles).getD j 0) :
    calculateRSI candles period = 0 := by
  obtain ⟨j, hj, hdec⟩ := h3
  have hg : rsiGains (rsiPrices candles) period = 0 :=
    rsiGains_eq_zero_of_no_increase _ _ h2
  have hl : 0 < rsiLosses (rsiPrices candles) period :=
    rsiLosses_pos_of_decrease _ _ j hj hdec
  have hper : (0 : ℚ) < (period : ℚ) := by
    exact_mod_cast Nat.pos_of_ne_zero (by omega)
  have havgL : rsiLosses (rsiPrices candles) period / (period : ℚ) ≠ 0 :=
    ne_of_gt (div_pos hl hper)
  unfold calculateRSI
  rw [if_neg (by omega), if_neg havgL]
  simp only [hg, zero_div, add_zero, div_one, sub_self, zero_mul]
  have h0r : jsRound 0 = 0 := by
    rw [jsRound]
    norm_num [Int.floor_eq_iff]
  rw [h0r]
  norm_num

/-- C6: when at least `period + 1` observations are present and none of the
first `period` oldest-first changes is a decrease, `losses` stays 0, so
`avgLoss = 0` and `calculateRSI` returns exactly 100. -/
theorem calculateRSI_no_losses (candles : List CandleData) (period : ℕ)
    (h1 : period + 1 ≤ candles.length)
    (h2 : ∀ j < period,
      (rsiPrices candles).getD j 0 ≤ (rsiPrices candles).getD (j + 1) 0) :
    calculateRSI candles period = 100 :=
  calculateRSI_hundred_of_no_decrease candles period h1 h2

/-- Witness for C6: fifteen equal prices, period 14. -/
theorem calculateRSI_no_losses_witness :
    calculateRSI exFlat 14 = 100 :=
  calculateRSI_no_losses exFlat 14 (by decide) (by decide)

theorem rsiGains_append (ps qs : List ℚ) (period : ℕ) (h : period + 1 ≤ ps.length) :
    rsiGains (ps ++ qs) period = rsiGains ps period := by
  unfold rsiGains
  congr 1
  apply List.map_congr_left
  intro j hj
  rw [List.mem_range] at hj
  have e1 : (ps ++ qs).getD j 0 = ps.getD j 0 :=
    List.getD_append _ _ _ _ (by omega)
  have e2 : (ps ++ qs).getD (j + 1) 0 = ps.getD (j + 1) 0 :=
    List.getD_append _ _ _ _ (by omega)
  rw [e1, e2]

theorem rsiLosses_append (ps qs : List ℚ) (period : ℕ) (h : period + 1 ≤ ps.length) :
    rsiLosses (ps ++ qs) period = rsiLosses ps period := by
  unfold rsiLosses
  congr 1
  apply List.map_congr_left
  intro j hj
  rw [List.mem_range] at hj
  have e1 : (ps ++ qs).getD j 0 = ps.getD j 0 :=
    List.getD_append _ _ _ _ (by omega)
  have e2 : (ps ++ qs).getD (j + 1) 0 = ps.getD (j + 1) 0 :=
    List.getD_append _ _ _ _ (by omega)
  rw [e1, e2]

/-- C4, counterexample: appending one additional older observation to a
15-observation newest-first series changes the output of `calculateRSI` at the
default period 14.  With fifteen equal prices the RSI is 100; appending an
older price of 200 turns the oldest of the first 14 oldest-first changes into
a loss, and the RSI becomes 0.  (Reversal puts appended older data at the
front of the oldest-first order, and the code reads exactly the first
`period` transitions of that order, so older data shifts the used window.) -/
theorem calculateRSI_append_older_cex :
    calculateRSI (exFlat ++ [exCandle 200]) 14 ≠ calculateRSI exFlat 14 := by
  have h1 : calculateRSI exFlat 14 = 100 :=
    calculateRSI_hundred_of_no_decrease exFlat 14 (by decide) (by decide)
  have h2 : calculateRSI (exFlat ++ [exCandle 200]) 14 = 0 :=
    calculateRSI_zero_of_no_increase (exFlat ++ [exCandle 200]) 14 (by decide)
      (by decide) ⟨0, by decide, by decide⟩
  rw [h1, h2]
  norm_num

/-- C4 as amended: `calculateRSI` reads only the first `period` transitions of
the oldest-first order, which are the oldest `period + 1` observations of the
newest-first input; hence prepending additional newer observations to a
newest-first sequence of length at least `period + 1` does not change the
output.  (Appending older data, as the original claim stated, does change it:
see the counterexample.) -/
theorem calculateRSI_prepend_invariant (extra candles : List CandleData) (period : ℕ)
    (h : period + 1 ≤ candles.length) :
    calculateRSI (extra ++ candles) period = calculateRSI candles period := by
  have hp : rsiPrices (extra ++ candles) =
      rsiPrices candles ++ (extra.map (fun c => c.trade_price)).reverse := by
    unfold rsiPrices
    rw [List.map_append, List.reverse_append]
  have hplen : period + 1 ≤ (rsiPrices candles).length := by
    rw [rsiPrices_length]
    exact h
  have hne1 : ¬ ((extra ++ candles).length < period + 1) := by
    simp only [List.length_append]
    omega
  have hne2 : ¬ (candles.length < period + 1) := by omega
  have hg := rsiGains_append (rsiPrices candles)
    ((extra.map (fun c => c.trade_price)).reverse) period hplen
  have hl := rsiLosses_append (rsiPrices candles)
    ((extra.map (fun c => c.trade_price)).reverse) period hplen
  unfold calculateRSI
  rw [if_neg hne1, if_neg hne2, hp]
  simp only [hg, hl]

/-- Witness for the amended C4: prepending a newer observation to fifteen
flat prices leaves the RSI unchanged. -/
theorem calculateRSI_prepend_invariant_witness :
    calculateRSI ([exCandle 1] ++ exFlat) 14 = calculateRSI exFlat 14 :=
  calculateRSI_prepend_invariant [exCandle 1] exFlat 14 (by decide)

theorem consecutiveChanges_cons_cons (a b : ℚ) (t : List ℚ) :
    consecutiveChanges (a :: b :: t) = (b - a) :: consecutiveChanges (b :: t) := by
  simp [consecutiveChanges]

theorem take_consecutiveChanges :
    ∀ (n : ℕ) (ps : List ℚ), n + 1 ≤ ps.length →
      (consecutiveChanges ps).take n =
        (List.range n).map (fun j => ps.getD (j + 1) 0 - ps.getD j 0) := by
  intro n
  induction n with
  | zero =>
    intro ps _
    simp
  | succ n ih =>
    intro ps h
    rcases ps with _ | ⟨a, rest⟩
    · simp at h
    rcases rest with _ | ⟨b, t⟩
    · simp only [List.length_cons, List.length_nil] at h
      omega
    have hb : n + 1 ≤ (b :: t).length := by
      simp only [List.length_cons] at h ⊢
      omega
    rw [consecutiveChanges_cons_cons, List.take_succ_cons, List.range_succ_eq_map,
      List.map_cons, List.map_map, ih (b :: t) hb]
    refine congrArg₂ (· :: ·) (by simp) ?_
    apply List.map_congr_left
    intro j hj
    simp [Function.comp]

theorem sum_pos_part (l : List ℚ) :
    (l.map (fun c => if 0 < c then c else 0)).sum =
      (l.filter (fun c => decide (0 < c))).sum := by
  induction l with
  | nil => simp
  | cons a t ih =>
    by_cases h : 0 < a
    · simp [List.filter_cons, h, ih]
    · simp [List.filter_cons, h, ih]

theorem sum_neg_part (l : List ℚ) :
    (l.map (fun c => if 0 < c then 0 else |c|)).sum =
      ((l.filter (fun c => decide (c < 0))).map (fun c => |c|)).sum := by
  induction l with
  | nil => simp
  | cons a t ih =>
    by_cases hpos : 0 < a
    · have hneg : ¬ a < 0 := by linarith
      simp [List.filter_cons, hpos, hneg, ih]
    · by_cases hneg : a < 0
      · simp [List.filter_cons, hpos, hneg, ih]
      · have ha : a = 0 := le_antisymm (not_lt.mp hpos) (not_lt.mp hneg)
        subst ha
        simp [List.filter_cons, ih]

theorem rsiGains_eq_gainsOf (ps : List ℚ) (period : ℕ) (h : period + 1 ≤ ps.length) :
    rsiGains ps period = gainsOf ps period := by
  unfold rsiGains gainsOf
  rw [take_consecutiveChanges period ps h, ← sum_pos_part, List.map_map]
  rfl

theorem rsiLosses_eq_lossesOf (ps : List ℚ) (period : ℕ) (h : period + 1 ≤ ps.length) :
    rsiLosses ps period = lossesOf ps period := by
  unfold rsiLosses lossesOf
  rw [take_consecutiveChanges period ps h, ← sum_neg_part, List.map_map]
  rfl

/-- C1: on a newest-first series with at least `period + 1` observations whose
first `period` oldest-first changes include a strict decrease, `calculateRSI`
returns exactly `round((100 - 100 / (1 + avgGain / avgLoss)) * 100) / 100`,
where `gains` sums the positive changes and `losses` the absolute values of
the negative changes over the first `period` consecutive oldest-first pairs,
`avgGain = gains / period`, `avgLoss = losses / period`, and the rounding is
round-half-up at two decimal places (`jsRound`, JavaScript `Math.round`, at
the cent scale). -/
theorem calculateRSI_formula (candles : List CandleData) (period : ℕ)
    (h1 : period + 1 ≤ candles.length)
    (h2 : ∃ j < period,
      (rsiPrices candles).getD (j + 1) 0 < (rsiPrices candles).getD j 0) :
    calculateRSI candles period =
      (jsRound ((100 - 100 / (1 + (gainsOf (rsiPrices candles) period / period) /
        (lossesOf (rsiPrices candles) period / period))) * 100) : ℚ) / 100 := by
  obtain ⟨j, hj, hdec⟩ := h2
  have hplen : period + 1 ≤ (rsiPrices candles).length := by
    rw [rsiPrices_length]
    exact h1
  have hl : 0 < rsiLosses (rsiPrices candles) period :=
    rsiLosses_pos_of_decrease _ _ j hj hdec
  have hper : (0 : ℚ) < (period : ℚ) := by
    exact_mod_cast Nat.pos_of_ne_zero (by omega)
  have havgL : rsiLosses (rsiPrices candles) period / (period : ℚ) ≠ 0 :=
    ne_of_gt (div_pos hl hper)
  have hge := rsiGains_eq_gainsOf (rsiPrices candles) period hplen
  have hle' := rsiLosses_eq_lossesOf (rsiPrices candles) period hplen
  unfold calculateRSI
  rw [if_neg (by omega), if_neg havgL]
  simp only [hge, hle']

/-- Witness for C1 at the spec's section-8 worked example (15 prices,
period 14). -/
theorem calculateRSI_formula_witness :
    calculateRSI ex14 14 =
      (jsRound ((100 - 100 / (1 + (gainsOf (rsiPrices ex14) 14 / 14) /
        (lossesOf (rsiPrices ex14) 14 / 14))) * 100) : ℚ) / 100 :=
  calculateRSI_formula ex14 14 (by decide) ⟨3, by decide, by decide⟩

/-- C2, counterexample: with two candles whose previous-period trade price is
zero, the aggregator still reaches the line-99 division with divisor 0 and
still constructs the market's CoinMetrics record — the percent change IS
computed by dividing by the zero previous-period price (in JavaScript this
yields a non-finite value), refuting the claim that no division by zero
occurs. -/
theorem getCoinMetrics_percent_divzero_cex :
    percentChangeDivisor exZeroCandles = some 0 ∧
      (processMarket exMarketA exZeroCandles).isSome = true ∧
      (getCoinMetrics [exMarketA] (fun _ => Except.ok exZeroCandles)).length = 1 := by
  refine ⟨by decide, by decide, by decide⟩

/-- C2 as amended: the aggregator's percent-change computation is NOT guarded
against division by zero: for every market whose fetched series has at least
2 candles and a previous-period trade price of zero, the CoinMetrics record
is still constructed and the line-99 division receives the zero price as its
divisor. -/
theorem getCoinMetrics_percent_unguarded (m : MarketInfo) (candles : List CandleData)
    (h2 : 2 ≤ candles.length)
    (h0 : (candles.getD 1 default).trade_price = 0) :
    percentChangeDivisor candles = some 0 ∧
      (processMarket m candles).isSome = true := by
  constructor
  · rw [percentChangeDivisor, if_neg (by omega), h0]
  · unfold processMarket
    rw [if_neg (by omega)]
    simp

/-- Witness for the amended C2. -/
theorem getCoinMetrics_percent_unguarded_witness :
    percentChangeDivisor exZeroCandles = some 0 ∧
      (processMarket exMarketB exZeroCandles).isSome = true :=
  getCoinMetrics_percent_unguarded exMarketB exZeroCandles (by decide) (by decide)

theorem processMarket_market_eq (m : MarketInfo) (candles : List CandleData)
    (r : CoinMetrics) (h : processMarket m candles = some r) :
    r.market = m.market := by
  unfold processMarket at h
  split at h
  · cases h
  · simp only [Option.some.injEq] at h
    subst h
    rfl

theorem fetchAndProcess_market_eq (fetch : String → Except String (List CandleData))
    (m : MarketInfo) (r : CoinMetrics) (h : fetchAndProcess fetch m = some r) :
    r.market = m.market := by
  unfold fetchAndProcess at h
  cases hfm : fetch m.market with
  | ok candles =>
    rw [hfm] at h
    exact processMarket_market_eq m candles r h
  | error e =>
    rw [hfm] at h
    cases h

/-- C7: for a candidate market whose fetch succeeds, fewer than 2 returned
candles means no record with that market's id appears in the output, and 2 or
more returned candles means such a record does appear. -/
theorem getCoinMetrics_candle_count (markets : List MarketInfo)
    (fetch : String → Except String (List CandleData)) (m : MarketInfo)
    (candles : List CandleData)
    (hm : m ∈ krwCandidates markets)
    (hok : fetch m.market = Except.ok candles) :
    (candles.length < 2 →
      ∀ r ∈ getCoinMetrics markets fetch, r.market ≠ m.market) ∧
    (2 ≤ candles.length →
      ∃ r ∈ getCoinMetrics markets fetch, r.market = m.market) := by
  constructor
  · intro hlt r hr hmr
    rw [getCoinMetrics, List.mem_filterMap] at hr
    obtain ⟨a, _, hfa⟩ := hr
    have haM : a.market = m.market := by
      rw [← fetchAndProcess_market_eq fetch a r hfa, hmr]
    have hnone : fetchAndProcess fetch a = none := by
      unfold fetchAndProcess
      rw [haM, hok]
      show processMarket a candles = none
      unfold processMarket
      rw [if_pos hlt]
    rw [hnone] at hfa
    cases hfa
  · intro hge
    have hpm : ∃ r, processMarket m candles = some r ∧ r.market = m.market := by
      unfold processMarket
      rw [if_neg (by omega)]
      exact ⟨_, rfl, rfl⟩
    obtain ⟨r, hr, hrm⟩ := hpm
    have hfp : fetchAndProcess fetch m = some r := by
      unfold fetchAndProcess
      rw [hok]
      exact hr
    exact ⟨r, List.mem_filterMap.mpr ⟨m, hm, hfp⟩, hrm⟩

/-- Witness for C7: `KRW-AAA` fetches one candle and is excluded; `KRW-BBB`
fetches two candles and is included. -/
theorem getCoinMetrics_candle_count_witness :
    (∀ r ∈ getCoinMetrics exMarkets exFetch7, r.market ≠ "KRW-AAA") ∧
      (∃ r ∈ getCoinMetrics exMarkets exFetch7, r.market = "KRW-BBB") :=
  ⟨(getCoinMetrics_candle_count exMarkets exFetch7 exMarketA exOneCandle
      (by decide) rfl).1 (by decide),
    (getCoinMetrics_candle_count exMarkets exFetch7 exMarketB exTwoCandles
      (by decide) rfl).2 (by decide)⟩

theorem fetch_error_filterMap (l : List MarketInfo)
    (f g : String → Except String (List CandleData)) (M : String) (e : String)
    (hf : f M = Except.error e) (hfg : ∀ s, s ≠ M → f s = g s) :
    l.filterMap (fetchAndProcess f) =
      (l.filterMap (fetchAndProcess g)).filter (fun r => r.market != M) := by
  induction l with
  | nil => rfl
  | cons m t ih =>
    by_cases hm : m.market = M
    · have hfm : fetchAndProcess f m = none := by
        unfold fetchAndProcess
        rw [hm, hf]
      rw [List.filterMap_cons, hfm]
      cases hg : fetchAndProcess g m with
      | none =>
        rw [List.filterMap_cons, hg, ih]
      | some r =>
        have hrm : r.market = M := by
          rw [fetchAndProcess_market_eq g m r hg, hm]
        rw [List.filterMap_cons, hg, List.filter_cons,
          show (r.market != M) = false by simp [hrm]]
        exact ih
    · have hfm : fetchAndProcess f m = fetchAndProcess g m := by
        unfold fetchAndProcess
        rw [hfg m.market hm]
      rw [List.filterMap_cons, List.filterMap_cons, hfm]
      cases hg : fetchAndProcess g m with
      | none => exact ih
      | some r =>
        have hrm : (r.market != M) = true := by
          simp [fetchAndProcess_market_eq g m r hg, hm]
        rw [List.filter_cons, hrm]
        simp only [if_true]
        rw [ih]

/-- C8: a candidate market whose fetch rejects contributes no record, and the
rest of the batch is untouched: under a fetch `f` that fails for market id `M`
and agrees with `g` elsewhere, the output is exactly the output under `g` with
the records of `M` removed — every other market's record is what it would have
been had `M` not failed. -/
theorem getCoinMetrics_error_isolated (markets : List MarketInfo)
    (f g : String → Except String (List CandleData)) (M : String) (e : String)
    (hf : f M = Except.error e) (hfg : ∀ s, s ≠ M → f s = g s) :
    (∀ r ∈ getCoinMetrics markets f, r.market ≠ M) ∧
      getCoinMetrics markets f =
        (getCoinMetrics markets g).filter (fun r => r.market != M) := by
  constructor
  · intro r hr hrm
    rw [getCoinMetrics, List.mem_filterMap] at hr
    obtain ⟨a, _, hfa⟩ := hr
    have ham : a.market = M := by
      rw [← fetchAndProcess_market_eq f a r hfa, hrm]
    have hnone : fetchAndProcess f a = none := by
      unfold fetchAndProcess
      rw [ham, hf]
    rw [hnone] at hfa
    cases hfa
  · exact fetch_error_filterMap (krwCandidates markets) f g M e hf hfg

/-- Witness for C8: `KRW-AAA` rejects under `exFetchErr`; the output equals
the all-success output with the `KRW-AAA` record removed. -/
theorem getCoinMetrics_error_isolated_witness :
    (∀ r ∈ getCoinMetrics exMarkets exFetchErr, r.market ≠ "KRW-AAA") ∧
      getCoinMetrics exMarkets exFetchErr =
        (getCoinMetrics exMarkets exFetchOk).filter (fun r => r.market != "KRW-AAA") :=
  getCoinMetrics_error_isolated exMarkets exFetchErr exFetchOk "KRW-AAA" "boom"
    rfl (fun s hs => by simp [exFetchErr, exFetchOk, hs])

theorem mergeSort_desc_perm_pairwise (key : CoinMetrics → ℚ) (l : List CoinMetrics) :
    (l.mergeSort (fun a b => decide (key b ≤ key a))).Perm l ∧
      (l.mergeSort (fun a b => decide (key b ≤ key a))).Pairwise
        (fun a b => key b ≤ key a) := by
  constructor
  · exact List.mergeSort_perm l _
  · refine List.Pairwise.imp (fun h => of_decide_eq_true h)
      (List.sorted_mergeSort ?_ ?_ l)
    · intro a b c hab hbc
      simp only [decide_eq_true_eq] at hab hbc ⊢
      exact le_trans hbc hab
    · intro a b
      simp only [Bool.or_eq_true, decide_eq_true_eq]
      exact le_total (key b) (key a)

/-- C9: for the keys `volume`, `rsi` and `change` the rendered records are a
permutation of the input, non-increasing in `volume24h`, `rsi` and
`priceChangePercent` respectively; any other key renders the input order
unchanged (silent fallback, no sort applied). -/
theorem generateDashboard_sort (metrics : List CoinMetrics) (sortBy : String) :
    (sortBy = "volume" →
      (generateDashboard metrics sortBy).Perm metrics ∧
        (generateDashboard metrics sortBy).Pairwise
          (fun a b => b.volume24h ≤ a.volume24h)) ∧
    (sortBy = "rsi" →
      (generateDashboard metrics sortBy).Perm metrics ∧
        (generateDashboard metrics sortBy).Pairwise (fun a b => b.rsi ≤ a.rsi)) ∧
    (sortBy = "change" →
      (generateDashboard metrics sortBy).Perm metrics ∧
        (generateDashboard metrics sortBy).Pairwise
          (fun a b => b.priceChangePercent ≤ a.priceChangePercent)) ∧
    (sortBy ≠ "volume" → sortBy ≠ "rsi" → sortBy ≠ "change" →
      generateDashboard metrics sortBy = metrics) := by
  refine ⟨?_, ?_, ?_, ?_⟩
  · intro h
    subst h
    simp only [generateDashboard, if_true]
    exact mergeSort_desc_perm_pairwise (fun x => x.volume24h) metrics
  · intro h
    subst h
    simp only [generateDashboard, if_true]
    exact mergeSort_desc_perm_pairwise (fun x => x.rsi) metrics
  · intro h
    subst h
    simp only [generateDashboard, if_true]
    exact mergeSort_desc_perm_pairwise (fun x => x.priceChangePercent) metrics
  · intro h1 h2 h3
    simp only [generateDashboard]
    rw [if_neg h1, if_neg h2, if_neg h3]

/-- Witness for C9: sorting by `volume` permutes the two-record collection;
the unrecognised key `other` leaves it exactly as given. -/
theorem generateDashboard_sort_witness :
    (generateDashboard exMetrics "volume").Perm exMetrics ∧
      generateDashboard exMetrics "other" = exMetrics :=
  ⟨((generateDashboard_sort exMetrics "volume").1 rfl).1,
    (generateDashboard_sort exMetrics "other").2.2.2
      (by decide) (by decide) (by decide)⟩

/-- C10: `generateDashboard` does not mutate its `metrics` argument: the
caller's array observed after the call (first component of the state-passing
embedding) is the unchanged input — same length, same element order, same
records — because the sort operates on the copy `[...metrics]` only. -/
theorem generateDashboard_no_mutation (metrics : List CoinMetrics) (sortBy : String) :
    (generateDashboardState metrics sortBy).1 = metrics ∧
      (generateDashboardState metrics sortBy).2 = generateDashboard metrics sortBy :=
  ⟨rfl, rfl⟩
